import Mathlib

/-!
Verification of the Authentication & Transactional Ledger Engine of
`bot2.py` (a chat-driven account-and-balance manager).

The Python source is shallowly embedded: each relevant method is translated
into an executable Lean definition over explicit state.  Time stamps are
modelled as integers (`time.time()` values are only ever compared), money as
rationals (the source stores `DECIMAL(15, 2)` amounts), and external
collaborators (the Argon2 primitive, the Fernet cipher, base64, the gateway)
as explicit function parameters or structures carrying their documented
contract, so that theorems can quantify over every conforming collaborator.

The source file contains several duplicated class bodies (near-identical
copies of the `Security`, `AdminPanel` and `PaymentSystem` methods).  The
duplicated copies were diffed and are behaviourally identical for every
method embedded here, so each definition below follows the first copy, which
is the one the line references in the commentary point at.
-/

namespace Bot2

/-! ## Rate limiter / lockout tracker

Embeds `Security.check_rate_limit` (src/bot2.py lines 1166-1203) for a single
`(identifier, action)` key.  The Python keeps two dicts keyed by
`f"{identifier}_{action}"`: `self.lockout_tracker[key]` (a lockout
timestamp) and `self.rate_limits[key]` (a dict `{'count': c, 'timestamp':
ts}`).  For one fixed key that state is an optional lockout time and an
optional counter. -/

structure RateState where
  lockout : Option Int
  counter : Option (Nat × Int)
deriving Repr, DecidableEq

def RateState.empty : RateState := ⟨none, none⟩

/-- The part of `check_rate_limit` after the lockout check: initialise the
counter at `(1, now)` if absent or expired, otherwise increment it and lock
out (recording `now` as the lockout timestamp and logging a high-severity
`rate_limit_exceeded` event) when the count exceeds `max_attempts`. -/
def checkCounter (s : RateState) (now : Int) (maxAttempts : Nat) (period : Int) :
    Bool × RateState :=
  match s.counter with
  | none => (true, { s with counter := some (1, now) })
  | some (c, ts) =>
    if now - ts > period then
      (true, { s with counter := some (1, now) })
    else
      let c2 := c + 1
      if c2 > maxAttempts then
        (false, { lockout := some now, counter := some (c2, ts) })
      else
        (true, { s with counter := some (c2, ts) })

/-- Embedding of `Security.check_rate_limit`: if a lockout timestamp exists
and `now - lockout < period`, refuse; otherwise delete the stale lockout and
fall through to the counter logic. -/
def check_rate_limit (s : RateState) (now : Int) (maxAttempts : Nat) (period : Int) :
    Bool × RateState :=
  match s.lockout with
  | some lt =>
    if now - lt < period then (false, s)
    else checkCounter { s with lockout := none } now maxAttempts period
  | none => checkCounter s now maxAttempts period

/-- State of the limiter after the first `k` calls, the `j`-th call arriving
at time `f j`, starting from empty state. -/
def rlStateAfter (f : Nat → Int) (maxAttempts : Nat) (period : Int) : Nat → RateState
  | 0 => RateState.empty
  | k + 1 => (check_rate_limit (rlStateAfter f maxAttempts period k) (f k) maxAttempts period).2

/-- Result (allowed or refused) of the `k`-th call (0-based). -/
def rlResultAt (f : Nat → Int) (maxAttempts : Nat) (period : Int) (k : Nat) : Bool :=
  (check_rate_limit (rlStateAfter f maxAttempts period k) (f k) maxAttempts period).1

/-! ## Credential policy engine

Embeds `Security._validate_password_policy` (lines 995-1032),
`Security.hash_password` (985-993) and `Security.check_password_strength`
(1340-1408).  Passwords are lists of characters; the regex character-class
tests of the source become decidable character predicates. -/

/-- The nine policy rules, in the order the source checks them. -/
inductive PolicyRule where
  | tooShort
  | tooLong
  | noUpper
  | noLower
  | noDigit
  | noSpecial
  | common
  | repeats
  | sequences
deriving Repr, DecidableEq

/-- Position of a rule in the source's check order. -/
def ruleIdx : PolicyRule → Nat
  | .tooShort => 0
  | .tooLong => 1
  | .noUpper => 2
  | .noLower => 3
  | .noDigit => 4
  | .noSpecial => 5
  | .common => 6
  | .repeats => 7
  | .sequences => 8

/-- The `self.password_policy` dict built in `Security.__init__`. -/
structure PasswordPolicy where
  min_length : Nat
  max_length : Nat
  require_upper : Bool
  require_lower : Bool
  require_digit : Bool
  require_special : Bool
  block_common : Bool
  block_repeats : Bool
  block_sequences : Bool
deriving Repr, DecidableEq

/-- `Security.__init__` sets `min_length = max(12, config.PASSWORD_MIN_LENGTH)`,
`max_length = 128` and every toggle to `True`. -/
def mkPasswordPolicy (configMin : Nat) : PasswordPolicy :=
  ⟨max 12 configMin, 128, true, true, true, true, true, true, true⟩

/-- Regex `[A-Z]` membership for one character. -/
def isUpperAZ (c : Char) : Bool := 65 ≤ c.toNat && c.toNat ≤ 90

/-- Regex `[a-z]` membership for one character. -/
def isLowerAZ (c : Char) : Bool := 97 ≤ c.toNat && c.toNat ≤ 122

/-- Regex `\d` membership for one character (ASCII digit). -/
def isDigit09 (c : Char) : Bool := 48 ≤ c.toNat && c.toNat ≤ 57

/-- Code points of the special-character class of the policy regex
(exclamation, at, hash, dollar, percent, caret, ampersand, asterisk,
parentheses, comma, dot, question mark, double quote, colon, braces,
vertical bar, angle brackets). -/
def specialCodes : List Nat :=
  [33, 64, 35, 36, 37, 94, 38, 42, 40, 41, 44, 46, 63, 34, 58, 123, 125, 124, 60, 62]

def isSpecialPolicy (c : Char) : Bool := specialCodes.contains c.toNat

/-- Regex `[^A-Za-z0-9]` used by `check_password_strength` for its
`has_special` class (any non-alphanumeric character). -/
def isNonAlnum (c : Char) : Bool := !(isUpperAZ c || isLowerAZ c || isDigit09 c)

/-- Regex `(.)\1{2,}`: some character occurs at three consecutive positions. -/
def hasTripleRepeat : List Char → Bool
  | a :: b :: c :: rest => (a == b && b == c) || hasTripleRepeat (b :: c :: rest)
  | _ => false

def startsWithChars : List Char → List Char → Bool
  | [], _ => true
  | _ :: _, [] => false
  | p :: ps, c :: cs => p == c && startsWithChars ps cs

/-- Contiguous-substring test, the semantics of `re.search` for a literal
alternative. -/
def containsChars (pat : List Char) : List Char → Bool
  | [] => startsWithChars pat []
  | c :: cs => startsWithChars pat (c :: cs) || containsChars pat cs

/-- The alternatives of regex `123|234|345|456|567|678|789|890`. -/
def numericTriples : List (List Char) :=
  ["123", "234", "345", "456", "567", "678", "789", "890"].map String.toList

/-- The alternatives of regex `qwer|wert|erty|rtyu|tyui|yuio|uiop`
(applied to the lowercased password in the source). -/
def keyboardQuads : List (List Char) :=
  ["qwer", "wert", "erty", "rtyu", "tyui", "yuio", "uiop"].map String.toList

def hasNumericSequence (p : List Char) : Bool :=
  numericTriples.any fun pat => containsChars pat p

def hasKeyboardSequence (p : List Char) : Bool :=
  keyboardQuads.any fun pat => containsChars pat (p.map Char.toLower)

/-- Embedding of `Security._validate_password_policy`: runs the checks in
source order and reports the first violated rule (the source raises
`SecurityException` with the rule's message; we return the rule tag).
`common` is the (configurable) common-password set, already lowercased as
`_load_common_passwords` lowercases its lines.  The leading
`isinstance(password, str)` guard of the source is discharged by typing. -/
def validatePasswordPolicy (pol : PasswordPolicy) (common : List (List Char))
    (p : List Char) : Option PolicyRule :=
  if p.length < pol.min_length then some .tooShort
  else if p.length > pol.max_length then some .tooLong
  else if pol.require_upper && !(p.any isUpperAZ) then some .noUpper
  else if pol.require_lower && !(p.any isLowerAZ) then some .noLower
  else if pol.require_digit && !(p.any isDigit09) then some .noDigit
  else if pol.require_special && !(p.any isSpecialPolicy) then some .noSpecial
  else if pol.block_common && common.contains (p.map Char.toLower) then some .common
  else if pol.block_repeats && hasTripleRepeat p then some .repeats
  else if pol.block_sequences && (hasNumericSequence p || hasKeyboardSequence p) then
    some .sequences
  else none

/-- The raw condition of each rule, exactly as guarded in the source chain. -/
def violatesRule (pol : PasswordPolicy) (common : List (List Char))
    (p : List Char) : PolicyRule → Bool
  | .tooShort => p.length < pol.min_length
  | .tooLong => p.length > pol.max_length
  | .noUpper => pol.require_upper && !(p.any isUpperAZ)
  | .noLower => pol.require_lower && !(p.any isLowerAZ)
  | .noDigit => pol.require_digit && !(p.any isDigit09)
  | .noSpecial => pol.require_special && !(p.any isSpecialPolicy)
  | .common => pol.block_common && common.contains (p.map Char.toLower)
  | .repeats => pol.block_repeats && hasTripleRepeat p
  | .sequences => pol.block_sequences && (hasNumericSequence p || hasKeyboardSequence p)

/-- Embedding of `Security.hash_password`: validate the policy first (raising
the first violated rule), then call the Argon2 primitive.  The primitive is
passed as a parameter so that theorems can express that it is never invoked
on the failure path. -/
def hash_password (hashPrimitive : List Char → String) (pol : PasswordPolicy)
    (common : List (List Char)) (p : List Char) : Except PolicyRule String :=
  match validatePasswordPolicy pol common p with
  | some r => .error r
  | none => .ok (hashPrimitive p)

/-- The set `Security._get_default_common_passwords` returns. -/
def defaultCommonPasswords : List (List Char) :=
  ["password", "123456", "qwerty", "admin", "welcome",
   "12345678", "111111", "sunshine", "iloveyou", "password1",
   "admin123", "letmein", "monkey", "football", "123123",
   "123456789", "1234567890", "12345", "1234", "1234567",
   "dragon", "baseball", "abc123", "superman", "master",
   "trustno1", "access", "flower", "hello", "solo",
   "secret", "mustang", "michael", "shadow", "jennifer",
   "jordan", "1111", "asdfgh", "123qwe", "qwerty123",
   "1q2w3e4r", "qwertyuiop", "passw0rd", "starwars", "freedom"].map String.toList

/-- Issue tags appended to `result['issues']` by `check_password_strength`,
in source order. -/
inductive StrengthIssue where
  | tooShort
  | tooLong
  | noUpper
  | noLower
  | noDigit
  | noSpecial
  | common
  | repeats
  | numericSeq
  | letterSeq
deriving Repr, DecidableEq

structure StrengthResult where
  length : Nat
  strength : Nat
  entropy : ℚ
  issues : List StrengthIssue
deriving Repr, DecidableEq

/-- The entropy-bucketing chain of `check_password_strength`: strengths 1-5
at thresholds 30, 50, 70, 100 bits. -/
def entropyStrength (entropy : ℚ) : Nat :=
  if entropy < 30 then 1
  else if entropy < 50 then 2
  else if entropy < 70 then 3
  else if entropy < 100 then 4
  else 5

/-- Embedding of `Security.check_password_strength`.  The floating-point
entropy `len(password) * math.log2(char_set)` is modelled with an arbitrary
rational-valued logarithm `log2f` supplied as a parameter: every theorem
below holds for any value it returns, so no property of the real `log2` is
assumed.  The structure follows the source exactly: length issues, class
issues, entropy bucketing into strengths 1-5, the common-password override
to strength 1, then repeat and sequence issues. -/
def check_password_strength (log2f : Nat → ℚ) (pol : PasswordPolicy)
    (common : List (List Char)) (p : List Char) : StrengthResult :=
  let lenIssues : List StrengthIssue :=
    if p.length < pol.min_length then [.tooShort]
    else if p.length > pol.max_length then [.tooLong]
    else []
  let hasU := p.any isUpperAZ
  let hasL := p.any isLowerAZ
  let hasD := p.any isDigit09
  let hasS := p.any isNonAlnum
  let classIssues : List StrengthIssue :=
    (if !hasU && pol.require_upper then [.noUpper] else []) ++
    (if !hasL && pol.require_lower then [.noLower] else []) ++
    (if !hasD && pol.require_digit then [.noDigit] else []) ++
    (if !hasS && pol.require_special then [.noSpecial] else [])
  let charSet : Nat :=
    (if hasU then 26 else 0) + (if hasL then 26 else 0) +
    (if hasD then 10 else 0) + (if hasS then 32 else 0)
  let entropy : ℚ := if 0 < charSet then (p.length : ℚ) * log2f charSet else 0
  let strength0 : Nat := entropyStrength entropy
  let isCommon := common.contains (p.map Char.toLower)
  let strength := if isCommon then 1 else strength0
  let issues :=
    lenIssues ++ classIssues ++
    (if isCommon then [.common] else []) ++
    (if hasTripleRepeat p then [.repeats] else []) ++
    (if hasNumericSequence p then [.numericSeq] else []) ++
    (if hasKeyboardSequence p then [.letterSeq] else [])
  ⟨p.length, strength, entropy, issues⟩

/-! ## Login lockout

Embeds `MainBot._authenticate_existing_user` (lines 5136-5177) restricted to
the fields it touches for one account: the `failed_login_attempts` counter
and the `is_active` flag.  Password verification is abstracted to the
boolean `passwordOk`; the embedding places the lock check before it exactly
as the source does. -/

structure UserAuthState where
  failedAttempts : Nat
  isActive : Bool
deriving Repr, DecidableEq

inductive AuthOutcome where
  | accountLocked
  | authFailed (remaining : Int)
  | passwordOk
deriving Repr, DecidableEq

/-- One authentication attempt.  The source first raises `ACCOUNT_LOCKED`
when `failed_login_attempts >= MAX_LOGIN_ATTEMPTS` (before calling
`verify_password`); on a wrong password it increments the counter, computes
`remaining = MAX_LOGIN_ATTEMPTS - attempts`, deactivates the account and
raises `ACCOUNT_LOCKED` when `remaining <= 0`, else raises `AUTH_FAILED`;
on a correct password it resets the counter. -/
def authenticate (maxLoginAttempts : Nat) (st : UserAuthState) (passwordOk : Bool) :
    AuthOutcome × UserAuthState :=
  if st.failedAttempts ≥ maxLoginAttempts then (.accountLocked, st)
  else if passwordOk then (.passwordOk, { st with failedAttempts := 0 })
  else
    let attempts := st.failedAttempts + 1
    let remaining : Int := (maxLoginAttempts : Int) - (attempts : Int)
    if remaining ≤ 0 then (.accountLocked, ⟨attempts, false⟩)
    else (.authFailed remaining, { st with failedAttempts := attempts })

/-- Account state after `k` consecutive failed password attempts starting
from a fresh account (`failed_login_attempts = 0`, active). -/
def authFailTrace (maxLoginAttempts : Nat) : Nat → UserAuthState
  | 0 => ⟨0, true⟩
  | k + 1 => (authenticate maxLoginAttempts (authFailTrace maxLoginAttempts k) false).2

/-! ## Configuration loading

Embeds `Config._get_env` (lines 153-158), `Config._get_fernet_key`
(177-183) and `Config._get_int` (185-196).  The process environment is a
function from variable names to optional strings. -/

inductive ConfigError where
  | missingVar (key : String)
  | invalidValue (key : String)
deriving Repr, DecidableEq

/-- Embedding of `Config._get_env`: `os.getenv(key, default)` falls back to
the default; a `None` result raises `ValueError` ("required variable not
set"). -/
def getEnvVar (env : String → Option String) (key : String) (dflt : Option String) :
    Except ConfigError String :=
  match env key with
  | some v => .ok v
  | none =>
    match dflt with
    | some d => .ok d
    | none => .error (.missingVar key)

def digitsVal (cs : List Char) (acc : Nat) : Option Nat :=
  match cs with
  | [] => some acc
  | c :: rest => if isDigit09 c then digitsVal rest (acc * 10 + (c.toNat - 48)) else none

/-- Model of Python `int(...)` on an optionally-signed decimal string,
returning `none` where `int(...)` raises `ValueError`. -/
def parseIntStr (s : String) : Option Int :=
  match s.toList with
  | [] => none
  | c :: rest =>
    if c = '-' then
      match rest with
      | [] => none
      | _ => (digitsVal rest 0).map fun n => -(n : Int)
    else if isDigit09 c then (digitsVal (c :: rest) 0).map fun n => (n : Int)
    else none

/-- Embedding of `Config._get_int`: fetch the variable with `str(default)`
as fallback, parse it with `int(...)`, and range-check; any parse or range
failure raises. -/
def getIntConfig (env : String → Option String) (key : String) (dflt : Int)
    (minVal maxVal : Option Int) : Except ConfigError Int :=
  match getEnvVar env key (some (toString dflt)) with
  | .error e => .error e
  | .ok s =>
    match parseIntStr s with
    | none => .error (.invalidValue key)
    | some v =>
      if minVal.any (fun m => v < m) then .error (.invalidValue key)
      else if maxVal.any (fun m => m < v) then .error (.invalidValue key)
      else .ok v

/-- Embedding of `Config._get_fernet_key`: it calls
`self._get_env('FERNET_KEY', None)`, which raises when the variable is
unset, so the subsequent `if key is None: key = Fernet.generate_key()`
branch of the source (lines 180-183) is unreachable and a missing key is
fatal.  `generated` stands for the key that dead branch would have
produced. -/
def getFernetKey (env : String → Option String) (generated : String) :
    Except ConfigError String :=
  match getEnvVar env "FERNET_KEY" none with
  | .error e => .error e
  | .ok k => .ok k

/-! ## Symmetric cipher

Embeds `Security.encrypt_data` (lines 1134-1144) and
`Security.decrypt_data` (1146-1164).  The Fernet instance, the urlsafe
base64 codec and the UTF-8 codec are external library collaborators; each
is modelled as a structure bundling its operations with its documented
round-trip contract, over abstract byte/token types so theorems quantify
over every conforming implementation. -/

inductive Severity where
  | low
  | medium
  | high
  | critical
deriving Repr, DecidableEq

structure SecurityEvent where
  eventType : String
  severity : Severity
deriving Repr, DecidableEq

inductive CryptoError where
  | invalidToken
  | decryptionError
deriving Repr, DecidableEq

/-- Contract of the UTF-8 codec (`str.encode('utf-8')` and
`bytes.decode('utf-8')`): decoding an encoded string gives it back. -/
structure Utf8Codec (β : Type) where
  encode : String → β
  decode : β → Option String
  decode_encode : ∀ s, decode (encode s) = some s

/-- Contract of the authenticated Fernet cipher: decryption of a genuine
ciphertext succeeds with the original plaintext; `none` models the
`InvalidToken` exception on any tampered or corrupted input. -/
structure AuthCipher (β γ : Type) where
  enc : β → γ
  dec : γ → Option β
  dec_enc : ∀ b, dec (enc b) = some b

/-- Contract of `base64.urlsafe_b64encode` / `urlsafe_b64decode`:
decoding an encoded value gives it back; `none` models a `binascii`
decoding error. -/
structure B64Codec (γ τ : Type) where
  encode : γ → τ
  decode : τ → Option γ
  decode_encode : ∀ g, decode (encode g) = some g

/-- Embedding of `Security.encrypt_data` on a string input: UTF-8 encode,
encrypt with the Fernet suite, base64-encode the cipher output. -/
def encrypt_data {β γ τ : Type} (u : Utf8Codec β) (c : AuthCipher β γ)
    (b64 : B64Codec γ τ) (s : String) : τ :=
  b64.encode (c.enc (u.encode s))

/-- Embedding of `Security.decrypt_data`: base64-decode, decrypt, UTF-8
decode.  A failed authenticated decryption (`InvalidToken`) logs a
high-severity `decryption_failed` event and raises; any other failure
(base64 or UTF-8) takes the generic handler, logging a critical
`decryption_error` event.  The second component collects the security
events logged by the call. -/
def decrypt_data {β γ τ : Type} (u : Utf8Codec β) (c : AuthCipher β γ)
    (b64 : B64Codec γ τ) (t : τ) : Except CryptoError String × List SecurityEvent :=
  match b64.decode t with
  | none => (.error .decryptionError, [⟨"decryption_error", .critical⟩])
  | some g =>
    match c.dec g with
    | none => (.error .invalidToken, [⟨"decryption_failed", .high⟩])
    | some b =>
      match u.decode b with
      | none => (.error .decryptionError, [⟨"decryption_error", .critical⟩])
      | some s => (.ok s, [])

/-! ## Ledger: durable store, transactions and balance mutations

The persistent state the ledger claims range over is the `users.balance`
column and the `transactions` table (schema at lines 438-485).  Balances are
modelled as a total map from `user_id` to the stored balance — accounts are
never physically deleted (soft-deactivation only), and `UPDATE users SET
balance ...` on one `user_id` touches exactly that row.

Each balance-mutating code path is compiled to a list of primitive SQL
statements (`DbStmt`).  Two runners give them the store's semantics:

* `runTxn` — statements issued inside `async with self.db.transaction()`
  (`DatabaseTransaction`, lines 695-733): `BEGIN` … `COMMIT`, and any
  exception on the way triggers `ROLLBACK`, so a failed run leaves the
  state untouched;
* `runAutocommit` — statements issued through `Database.execute(...,
  commit=True)` (line 558): each statement commits on its own, so a failure
  at statement `k` leaves statements `0..k-1` durably applied.

`failAt = some k` injects a storage/network failure at statement `k`. -/

inductive TxStatus where
  | pending
  | processing
  | completed
  | failed
  | canceled
deriving Repr, DecidableEq

inductive TxKind where
  | deposit
  | withdrawal
  | adminAdjustment
deriving Repr, DecidableEq

structure TxRow where
  txid : Nat
  uid : Nat
  amount : ℤ
  status : TxStatus
  kind : TxKind
  createdAt : Int
deriving Repr, DecidableEq

structure DBState where
  bal : Nat → ℤ
  txs : List TxRow

inductive DbStmt where
  | setBal (uid : Nat) (v : ℤ)
  | addBal (uid : Nat) (d : ℤ)
  | insert (t : TxRow)
  | setStatus (txid : Nat) (st : TxStatus)
deriving Repr

/-- Row-level effect of `UPDATE transactions SET status = ? WHERE
transaction_id = ?` on one row. -/
def updStatusRow (txid : Nat) (st : TxStatus) (r : TxRow) : TxRow :=
  if r.txid = txid then { r with status := st } else r

/-- Effect of one SQL statement: `UPDATE users SET balance = ?`,
`UPDATE users SET balance = balance + ?`, `INSERT INTO transactions`,
`UPDATE transactions SET status = ? WHERE transaction_id = ?`. -/
def applyStmt (s : DBState) : DbStmt → DBState
  | .setBal uid v => { s with bal := fun u => if u = uid then v else s.bal u }
  | .addBal uid d => { s with bal := fun u => if u = uid then s.bal u + d else s.bal u }
  | .insert t => { s with txs := s.txs ++ [t] }
  | .setStatus txid st => { s with txs := s.txs.map (updStatusRow txid st) }

/-- Run a statement list inside one database transaction: all-or-nothing. -/
def runTxn (s : DBState) (prog : List DbStmt) (failAt : Option Nat) : DBState :=
  match failAt with
  | some _ => s
  | none => prog.foldl applyStmt s

/-- Run a statement list in autocommit mode: a failure at statement `k`
keeps the first `k` statements. -/
def runAutocommit (s : DBState) (prog : List DbStmt) (failAt : Option Nat) : DBState :=
  match failAt with
  | some k => (prog.take k).foldl applyStmt s
  | none => prog.foldl applyStmt s

/-- Statements issued by `AdminPanel.adjust_user_balance` (lines 2380-2447)
inside its transaction once validation has passed: write the new balance,
insert a completed `admin_adjustment` row. -/
def adjustStmts (uid : Nat) (newBal amount : ℤ) (txid : Nat) (now : Int) : List DbStmt :=
  [.setBal uid newBal, .insert ⟨txid, uid, amount, .completed, .adminAdjustment, now⟩]

/-- Statements issued by `MainBot._process_withdraw_wallet` (lines
4750-4794) inside its transaction: debit the balance, insert a `processing`
withdrawal row. -/
def withdrawStmts (uid : Nat) (amount : ℤ) (txid : Nat) (now : Int) : List DbStmt :=
  [.addBal uid (-amount), .insert ⟨txid, uid, amount, .processing, .withdrawal, now⟩]

/-- Statements issued by `MainBot._task_payment_processing` (lines
4067-4103) for one pending payment whose gateway status came back as
`newStatus`: update the row status (auto-committed), then — only when the
new status is `completed` — credit the balance with a second auto-committed
statement. -/
def depositSettleStmts (t : TxRow) (newStatus : TxStatus) : List DbStmt :=
  [.setStatus t.txid newStatus] ++
    (if newStatus = .completed then [.addBal t.uid t.amount] else [])

/-- Embedding of `AdminPanel.adjust_user_balance`: bound check on the
amount, read the current balance, reject a negative result, then run
`adjustStmts` inside the transaction.  An `error` result means the
exception propagated and `DatabaseTransaction.__aexit__` rolled back, so
the caller's visible state is the returned one. -/
inductive LedgerError where
  | amountTooLarge
  | negativeBalance
  | storage
deriving Repr, DecidableEq

def adjust_user_balance (maxChange : ℤ) (s : DBState) (uid : Nat) (amount : ℤ)
    (txid : Nat) (now : Int) (failAt : Option Nat) :
    Except LedgerError DBState × DBState :=
  if |amount| > maxChange then (.error .amountTooLarge, s)
  else if s.bal uid + amount < 0 then (.error .negativeBalance, s)
  else
    match failAt with
    | some k =>
      (.error .storage, runTxn s (adjustStmts uid (s.bal uid + amount) amount txid now) (some k))
    | none =>
      (.ok (runTxn s (adjustStmts uid (s.bal uid + amount) amount txid now) none),
        runTxn s (adjustStmts uid (s.bal uid + amount) amount txid now) none)

/-- Embedding of the transactional block of
`MainBot._process_withdraw_wallet`: debit and insert inside one
transaction; any failure inside the `async with` (including the
`message.answer` call between the writes and the audit log) rolls both
writes back. -/
def process_withdraw_wallet (s : DBState) (uid : Nat) (amount : ℤ) (txid : Nat)
    (now : Int) (failAt : Option Nat) : Except LedgerError DBState × DBState :=
  match failAt with
  | some k => (.error .storage, runTxn s (withdrawStmts uid amount txid now) (some k))
  | none => (.ok (runTxn s (withdrawStmts uid amount txid now) none),
             runTxn s (withdrawStmts uid amount txid now) none)

/-- Embedding of the per-payment body of `MainBot._task_payment_processing`
(status update then conditional credit, each auto-committed). -/
def task_payment_processing_step (s : DBState) (t : TxRow) (newStatus : TxStatus)
    (failAt : Option Nat) : DBState :=
  runAutocommit s (depositSettleStmts t newStatus) failAt

/-- The `WHERE status IN ('pending', 'processing') AND created_at <
datetime('now', '-1 hour')` filter of `MainBot._task_check_pending_transactions`
(lines 4152-4184); `SECONDS_IN_HOUR = 3600`. -/
def isStuck (now : Int) (t : TxRow) : Bool :=
  (t.status = TxStatus.pending || t.status = TxStatus.processing) &&
    t.createdAt < now - 3600

/-- Statements issued by one run of the reconciliation task: for every stuck
transaction, mark it `failed`; for stuck withdrawals additionally credit
the amount back. -/
def reconcileStmts (now : Int) (txs : List TxRow) : List DbStmt :=
  (txs.filter (isStuck now)).flatMap fun t =>
    [.setStatus t.txid .failed] ++
      (if t.kind = TxKind.withdrawal then [.addBal t.uid t.amount] else [])

/-- Embedding of one full run of `MainBot._task_check_pending_transactions`
with no injected failures (every statement auto-commits). -/
def check_pending_transactions (now : Int) (s : DBState) : DBState :=
  runAutocommit s (reconcileStmts now s.txs) none

/-! ## Ledger operation steps and the balance invariant

The balance writers of the source are collected into a step relation at the
granularity of one completed code path (the claims about mid-operation
partial states are handled separately through the statement runners above).
The writers, with their guarding reads as hypotheses, are:

* `adjust` — `AdminPanel.adjust_user_balance` (transactional);
* `depositCreate` — `PaymentSystem.create_payment` +
  `Database.create_transaction` (inserts a `pending` deposit row, no balance
  change; amount validated against `MIN_PAYMENT`/`MAX_PAYMENT`, so positive);
* `withdrawCreate` — `MainBot._process_withdraw_wallet` (transactional;
  the handler before it checked `amount <= balance`);
* `depositSettle` — one iteration of `MainBot._task_payment_processing`
  whose gateway status came back `completed` for a `pending` row;
* `withdrawComplete` / `withdrawFail` — `PaymentSystem.process_withdrawal`
  (lines 3644-3675) marking a `processing` withdrawal `completed`, or
  marking it `failed` and refunding the amount;
* `reconcileOne` — one iteration of the per-transaction loop of
  `MainBot._task_check_pending_transactions`. -/

def DBInit : DBState := ⟨fun _ => 0, []⟩

inductive LedgerStep (maxChange : ℤ) : DBState → DBState → Prop where
  | adjust (s : DBState) (uid : Nat) (amount : ℤ) (txid : Nat) (now : Int)
      (hmax : |amount| ≤ maxChange) (hpos : 0 ≤ s.bal uid + amount)
      (hfresh : ∀ t ∈ s.txs, t.txid ≠ txid) :
      LedgerStep maxChange s
        (runTxn s (adjustStmts uid (s.bal uid + amount) amount txid now) none)
  | depositCreate (s : DBState) (uid : Nat) (amount : ℤ) (txid : Nat) (now : Int)
      (hpos : 0 < amount) (hfresh : ∀ t ∈ s.txs, t.txid ≠ txid) :
      LedgerStep maxChange s
        (applyStmt s (.insert ⟨txid, uid, amount, .pending, .deposit, now⟩))
  | withdrawCreate (s : DBState) (uid : Nat) (amount : ℤ) (txid : Nat) (now : Int)
      (hbal : amount ≤ s.bal uid) (hfresh : ∀ t ∈ s.txs, t.txid ≠ txid) :
      LedgerStep maxChange s (runTxn s (withdrawStmts uid amount txid now) none)
  | depositSettle (s : DBState) (t : TxRow) (hmem : t ∈ s.txs)
      (hst : t.status = TxStatus.pending) :
      LedgerStep maxChange s (task_payment_processing_step s t .completed none)
  | withdrawComplete (s : DBState) (t : TxRow) (hmem : t ∈ s.txs)
      (hst : t.status = TxStatus.processing) (hk : t.kind = TxKind.withdrawal) :
      LedgerStep maxChange s (applyStmt s (.setStatus t.txid .completed))
  | withdrawFail (s : DBState) (t : TxRow) (hmem : t ∈ s.txs)
      (hst : t.status = TxStatus.processing) (hk : t.kind = TxKind.withdrawal) :
      LedgerStep maxChange s
        (runAutocommit s [.setStatus t.txid .failed, .addBal t.uid t.amount] none)
  | reconcileOne (s : DBState) (t : TxRow) (now : Int) (hmem : t ∈ s.txs)
      (hstuck : isStuck now t = true) :
      LedgerStep maxChange s
        (runAutocommit s ([DbStmt.setStatus t.txid .failed] ++
          (if t.kind = TxKind.withdrawal then [DbStmt.addBal t.uid t.amount] else [])) none)

def LedgerReachable (maxChange : ℤ) (s : DBState) : Prop :=
  Relation.ReflTransGen (LedgerStep maxChange) DBInit s

/-- Net effect of one transaction row on its account's stored balance:
completed deposits and adjustments were credited, completed withdrawals
were debited, and pending/processing withdrawals were already debited when
they were created (the source debits before external confirmation). -/
def netContrib (uid : Nat) (t : TxRow) : ℤ :=
  if t.uid = uid then
    match t.status, t.kind with
    | .completed, .deposit => t.amount
    | .completed, .adminAdjustment => t.amount
    | .completed, .withdrawal => -t.amount
    | .pending, .withdrawal => -t.amount
    | .processing, .withdrawal => -t.amount
    | _, _ => 0
  else 0

def netSum (uid : Nat) (txs : List TxRow) : ℤ := (txs.map (netContrib uid)).sum

/-- The sum the original claim asserts equals the balance: completed
transactions only, deposits and adjustments positive, withdrawals
negative. -/
def completedSignedSum (uid : Nat) (txs : List TxRow) : ℤ :=
  (txs.map fun t =>
    if t.uid = uid ∧ t.status = TxStatus.completed then
      match t.kind with
      | .withdrawal => -t.amount
      | _ => t.amount
    else 0).sum

/-- Invariant maintained by the ledger steps: the stored balance equals the
net row contributions; withdrawals are never `pending` (they are created
`processing`); and row ids are unique (`transaction_id` is the primary
key). -/
def LedgerInv (s : DBState) : Prop :=
  (∀ uid, s.bal uid = netSum uid s.txs) ∧
  (∀ t ∈ s.txs, t.kind = TxKind.withdrawal → t.status ≠ TxStatus.pending) ∧
  (s.txs.map TxRow.txid).Nodup

/-! ## Concrete instances used by the witnesses and counterexamples -/

/-- Call times for the rate-limiter witness: four calls at time 0, later
calls at time 100. -/
def rlWitnessTimes : Nat → Int := fun k => if k ≤ 3 then 0 else 100

/-- The source's check order of the policy rules. -/
def policyRuleOrder : List PolicyRule :=
  [.tooShort, .tooLong, .noUpper, .noLower, .noDigit, .noSpecial, .common,
   .repeats, .sequences]

/-- A password violating no policy rule except for containing the
three-character numeric run `123`. -/
def c8Password : List Char := "Worxm!k123pz".toList

/-- All ascending numeric sequences of length four (what the claim says the
sequence rule rejects). -/
def numericQuads : List (List Char) :=
  ["1234", "2345", "3456", "4567", "5678", "6789", "7890"].map String.toList

/-- Trivial UTF-8 codec instance for the cipher witness. -/
def wUtf8 : Utf8Codec String := ⟨id, some, fun _ => rfl⟩

/-- Cipher instance for the witness: wraps the plaintext in a singleton
list; every non-singleton is an invalid token. -/
def wCipher : AuthCipher String (List String) :=
  ⟨fun s => [s],
   fun l => match l with
     | [s] => some s
     | _ => none,
   fun _ => rfl⟩

/-- Trivial base64 codec instance for the cipher witness. -/
def wB64 : B64Codec (List String) (List String) := ⟨id, some, fun _ => rfl⟩

/-- A pending 50-unit deposit owned by account 7, row id 5. -/
def c1DepositRow : TxRow := ⟨5, 7, 50, .pending, .deposit, 0⟩

def c1State : DBState := ⟨fun _ => 0, [c1DepositRow]⟩

/-- The payment-processing task run on the pending deposit with the credit
statement failing after the status update committed. -/
def c1Partial : DBState := task_payment_processing_step c1State c1DepositRow .completed (some 1)

/-- Admin adjustment of +100 to account 1 from the initial state. -/
def c2Step1State : DBState := runTxn DBInit (adjustStmts 1 (DBInit.bal 1 + 100) 100 1 0) none

/-- Withdrawal of 40 by account 1 after the adjustment. -/
def c2Step2State : DBState := runTxn c2Step1State (withdrawStmts 1 40 2 5) none

/-- The processing withdrawal row of the reconciliation scenario: 40 units,
account 7, created at time 0. -/
def c4Row : TxRow := ⟨2, 7, 40, .processing, .withdrawal, 0⟩

/-- Scenario start: account 7 holds 100.00, no transaction rows. -/
def c4Start : DBState := ⟨fun _ => 100, []⟩

def c4AfterWithdraw : DBState := runTxn c4Start (withdrawStmts 7 40 2 0) none

/-- One reconciliation run over the stuck withdrawal, an hour's timeout
having passed (now = 7200). -/
def c4Reconciled : DBState := check_pending_transactions 7200 c4AfterWithdraw

theorem netSum_append (uid : Nat) (a b : List TxRow) :
    netSum uid (a ++ b) = netSum uid a + netSum uid b := by
  simp [netSum]

theorem map_updStatus_eq_of_ne (txs : List TxRow) (txid : Nat) (st : TxStatus)
    (h : ∀ r ∈ txs, r.txid ≠ txid) : txs.map (updStatusRow txid st) = txs := by
  induction txs with
  | nil => rfl
  | cons a l ih =>
    have ha : a.txid ≠ txid := h a (List.mem_cons_self a l)
    have hl : ∀ r ∈ l, r.txid ≠ txid := fun r hr => h r (List.mem_cons_of_mem a hr)
    simp [updStatusRow, ha, ih hl]

theorem map_updStatus_decomp (pre post : List TxRow) (t : TxRow) (st : TxStatus)
    (hpre : ∀ r ∈ pre, r.txid ≠ t.txid) (hpost : ∀ r ∈ post, r.txid ≠ t.txid) :
    (pre ++ t :: post).map (updStatusRow t.txid st) =
      pre ++ { t with status := st } :: post := by
  rw [List.map_append, List.map_cons, map_updStatus_eq_of_ne pre _ _ hpre,
    map_updStatus_eq_of_ne post _ _ hpost]
  simp [updStatusRow]

/-- A member of a key-nodup row list decomposes with its neighbours' keys
distinct from its own. -/
theorem exists_decomp_of_mem {t : TxRow} {txs : List TxRow} (hmem : t ∈ txs)
    (hnd : (txs.map TxRow.txid).Nodup) :
    ∃ pre post, txs = pre ++ t :: post ∧
      (∀ r ∈ pre, r.txid ≠ t.txid) ∧ (∀ r ∈ post, r.txid ≠ t.txid) := by
  obtain ⟨pre, post, rfl⟩ := List.append_of_mem hmem
  refine ⟨pre, post, rfl, ?_, ?_⟩
  · intro r hr
    have : t.txid ∉ pre.map TxRow.txid := by
      rw [List.map_append, List.map_cons] at hnd
      have := List.Nodup.not_mem (l := pre.map TxRow.txid ++ post.map TxRow.txid)
        (a := t.txid) ?_
      · intro hmemk
        exact this (List.mem_append_left _ hmemk)
      · exact (List.nodup_middle.mp hnd)
    intro he
    exact this (he ▸ List.mem_map_of_mem TxRow.txid hr)
  · intro r hr
    have : t.txid ∉ post.map TxRow.txid := by
      rw [List.map_append, List.map_cons] at hnd
      have := List.Nodup.not_mem (l := pre.map TxRow.txid ++ post.map TxRow.txid)
        (a := t.txid) ?_
      · intro hmemk
        exact this (List.mem_append_right _ hmemk)
      · exact (List.nodup_middle.mp hnd)
    intro he
    exact this (he ▸ List.mem_map_of_mem TxRow.txid hr)

theorem updStatusRow_txid (txid : Nat) (st : TxStatus) (r : TxRow) :
    (updStatusRow txid st r).txid = r.txid := by
  unfold updStatusRow
  split <;> rfl

theorem updStatusRow_kind (txid : Nat) (st : TxStatus) (r : TxRow) :
    (updStatusRow txid st r).kind = r.kind := by
  unfold updStatusRow
  split <;> rfl

/-- The invariant survives appending one fresh row whose net contribution is
added to its owner's balance. -/
theorem inv_insert (s s' : DBState) (row : TxRow) (hinv : LedgerInv s)
    (hbal : ∀ u, s'.bal u = s.bal u + netContrib u row)
    (htxs : s'.txs = s.txs ++ [row])
    (hfresh : ∀ t ∈ s.txs, t.txid ≠ row.txid)
    (hknd : row.kind = TxKind.withdrawal → row.status ≠ TxStatus.pending) :
    LedgerInv s' := by
  obtain ⟨hb, hnp, hnd⟩ := hinv
  refine ⟨?_, ?_, ?_⟩
  · intro u
    rw [hbal u, htxs, netSum_append, hb u]
    simp [netSum]
  · intro t ht
    rw [htxs] at ht
    rcases List.mem_append.mp ht with hmem | hmem
    · exact hnp t hmem
    · rcases List.mem_singleton.mp hmem with rfl
      exact hknd
  · rw [htxs, List.map_append]
    rw [List.nodup_append]
    refine ⟨hnd, List.nodup_singleton _, ?_⟩
    intro k hk
    simp only [List.map_cons, List.map_nil, List.mem_singleton, List.mem_cons,
      List.not_mem_nil, or_false]
    obtain ⟨t, htmem, rfl⟩ := List.mem_map.mp hk
    exact hfresh t htmem

/-- The invariant survives a status update of one existing row, provided the
owner's balance moves by exactly the row's change of net contribution and a
withdrawal row is not moved into `pending`. -/
theorem inv_status_update (s s' : DBState) (t : TxRow) (st' : TxStatus)
    (hmem : t ∈ s.txs) (hinv : LedgerInv s)
    (hbal : ∀ u, s'.bal u =
      s.bal u + (netContrib u { t with status := st' } - netContrib u t))
    (htxs : s'.txs = s.txs.map (updStatusRow t.txid st'))
    (hknd : t.kind = TxKind.withdrawal → st' ≠ TxStatus.pending) :
    LedgerInv s' := by
  obtain ⟨hb, hnp, hnd⟩ := hinv
  obtain ⟨pre, post, hdec, hpre, hpost⟩ := exists_decomp_of_mem hmem hnd
  have hmap : s'.txs = pre ++ { t with status := st' } :: post := by
    rw [htxs, hdec, map_updStatus_decomp pre post t st' hpre hpost]
  refine ⟨?_, ?_, ?_⟩
  · intro u
    have hold : s.bal u = netSum u pre + netContrib u t + netSum u post := by
      rw [hb u, hdec]
      rw [show pre ++ t :: post = pre ++ [t] ++ post by simp]
      rw [netSum_append, netSum_append]
      simp [netSum]
    have hnew : netSum u s'.txs =
        netSum u pre + netContrib u { t with status := st' } + netSum u post := by
      rw [hmap]
      rw [show pre ++ { t with status := st' } :: post
            = pre ++ [{ t with status := st' }] ++ post by simp]
      rw [netSum_append, netSum_append]
      simp [netSum]
    rw [hbal u, hnew, hold]
    ring
  · intro r hr
    rw [hmap] at hr
    rcases List.mem_append.mp hr with hmem2 | hmem2
    · exact hnp r (by rw [hdec]; exact List.mem_append_left _ hmem2)
    · rcases List.mem_cons.mp hmem2 with rfl | hmem3
      · intro hk hstp
        exact hknd hk hstp
      · exact hnp r (by
          rw [hdec]
          exact List.mem_append_right _ (List.mem_cons_of_mem _ hmem3))
  · rw [htxs, List.map_map]
    have : (TxRow.txid ∘ updStatusRow t.txid st') = TxRow.txid := by
      funext r
      exact updStatusRow_txid _ _ _
    rw [this]
    exact hnd

/-- Every ledger operation step preserves the invariant. -/
theorem ledgerInv_step {maxChange : ℤ} {s s' : DBState} (hinv : LedgerInv s)
    (h : LedgerStep maxChange s s') : LedgerInv s' := by
  cases h with
  | adjust uid amount txid now hmax hpos hfresh =>
    refine inv_insert _ _ ⟨txid, uid, amount, .completed, .adminAdjustment, now⟩ hinv
      ?_ ?_ hfresh ?_
    · intro u
      by_cases hu : u = uid
      · subst hu
        simp [runTxn, adjustStmts, applyStmt, netContrib]
      · simp [runTxn, adjustStmts, applyStmt, netContrib, hu, Ne.symm hu]
    · simp [runTxn, adjustStmts, applyStmt]
    · simp
  | depositCreate uid amount txid now hpos hfresh =>
    refine inv_insert _ _ ⟨txid, uid, amount, .pending, .deposit, now⟩ hinv ?_ ?_ hfresh ?_
    · intro u
      simp [applyStmt, netContrib]
    · simp [applyStmt]
    · simp
  | withdrawCreate uid amount txid now hbal hfresh =>
    refine inv_insert _ _ ⟨txid, uid, amount, .processing, .withdrawal, now⟩ hinv
      ?_ ?_ hfresh ?_
    · intro u
      by_cases hu : u = uid
      · subst hu
        simp [runTxn, withdrawStmts, applyStmt, netContrib]
      · simp [runTxn, withdrawStmts, applyStmt, netContrib, hu, Ne.symm hu]
    · simp [runTxn, withdrawStmts, applyStmt]
    · simp
  | depositSettle t hmem hst =>
    have hkw : t.kind ≠ TxKind.withdrawal := fun hk => (hinv.2.1 t hmem hk) hst
    refine inv_status_update _ _ t .completed hmem hinv ?_ ?_ ?_
    · intro u
      cases hkind : t.kind with
      | withdrawal => exact absurd hkind hkw
      | deposit =>
        by_cases hu : u = t.uid
        · subst hu
          simp [task_payment_processing_step, runAutocommit, depositSettleStmts,
            applyStmt, netContrib, hst, hkind]
        · simp [task_payment_processing_step, runAutocommit, depositSettleStmts,
            applyStmt, netContrib, hst, hkind, hu, Ne.symm hu]
      | adminAdjustment =>
        by_cases hu : u = t.uid
        · subst hu
          simp [task_payment_processing_step, runAutocommit, depositSettleStmts,
            applyStmt, netContrib, hst, hkind]
        · simp [task_payment_processing_step, runAutocommit, depositSettleStmts,
            applyStmt, netContrib, hst, hkind, hu, Ne.symm hu]
    · simp [task_payment_processing_step, runAutocommit, depositSettleStmts, applyStmt]
    · simp
  | withdrawComplete t hmem hst hk =>
    refine inv_status_update _ _ t .completed hmem hinv ?_ ?_ ?_
    · intro u
      simp [applyStmt, netContrib, hst, hk]
    · simp [applyStmt]
    · simp
  | withdrawFail t hmem hst hk =>
    refine inv_status_update _ _ t .failed hmem hinv ?_ ?_ ?_
    · intro u
      by_cases hu : u = t.uid
      · subst hu
        simp [runAutocommit, applyStmt, netContrib, hst, hk]
      · simp [runAutocommit, applyStmt, netContrib, hst, hk, hu, Ne.symm hu]
    · simp [runAutocommit, applyStmt]
    · simp
  | reconcileOne t now hmem hstuck =>
    have hstat : t.status = TxStatus.pending ∨ t.status = TxStatus.processing := by
      have := hstuck
      simp [isStuck] at this
      exact this.1
    refine inv_status_update _ _ t .failed hmem hinv ?_ ?_ ?_
    · intro u
      cases hkind : t.kind with
      | withdrawal =>
        by_cases hu : u = t.uid
        · subst hu
          rcases hstat with hstat | hstat <;>
            simp [runAutocommit, applyStmt, netContrib, hstat, hkind]
        · rcases hstat with hstat | hstat <;>
            simp [runAutocommit, applyStmt, netContrib, hstat, hkind, hu, Ne.symm hu]
      | deposit =>
        rcases hstat with hstat | hstat <;>
          simp [runAutocommit, applyStmt, netContrib, hstat, hkind]
      | adminAdjustment =>
        rcases hstat with hstat | hstat <;>
          simp [runAutocommit, applyStmt, netContrib, hstat, hkind]
    · cases hkind : t.kind <;>
        simp [runAutocommit, applyStmt, hkind]
    · simp

/-- The invariant holds in every reachable state. -/
theorem ledgerInv_reachable {maxChange : ℤ} {s : DBState}
    (h : LedgerReachable maxChange s) : LedgerInv s := by
  induction h with
  | refl =>
    refine ⟨?_, ?_, ?_⟩
    · intro u
      simp [DBInit, netSum]
    · intro t ht
      simp [DBInit] at ht
    · simp [DBInit]
  | tail hsteps hstep ih => exact ledgerInv_step ih hstep

/-! ## Claim theorems -/

/-- After `k` calls (`1 ≤ k ≤ N`) within the window, the limiter holds no
lockout and a counter `(k, f 0)` stamped with the first call's time. -/
theorem rlState_counting (f : Nat → Int) (N : Nat) (period : Int)
    (hwin : ∀ j, j ≤ N → f j - f 0 ≤ period) :
    ∀ k, 1 ≤ k → k ≤ N → rlStateAfter f N period k = ⟨none, some (k, f 0)⟩ := by
  intro k
  induction k with
  | zero => intro h1 _; exact absurd h1 (by omega)
  | succ k ih =>
    intro _ hk
    by_cases hk0 : k = 0
    · subst hk0
      simp [rlStateAfter, RateState.empty, check_rate_limit, checkCounter]
    · have hk1 : 1 ≤ k := Nat.one_le_iff_ne_zero.mpr hk0
      have hstate := ih hk1 (by omega)
      have hcond : ¬ (f k - f 0 > period) := by
        have := hwin k (by omega)
        omega
      have hcnt : ¬ (k + 1 > N) := by omega
      show (check_rate_limit (rlStateAfter f N period k) (f k) N period).2 = _
      rw [hstate]
      simp [check_rate_limit, checkCounter, hcond, hcnt]

/-- C3: with `max_attempts = N ≥ 1` and calls at times `f 0, f 1, …` from
empty state, all within the window (`f j - f 0 ≤ period` for `j ≤ N`, times
non-decreasing over the window), the first `N` calls return true; the
`(N+1)`-th call (index `N`) returns false and records the lockout timestamp
`f N`; and once the window has elapsed since the lockout
(`f (N+1) - f N > period`), the next call returns true with the counter
reset to `(1, f (N+1))`. -/
theorem c3_rate_limiter_cycle (f : Nat → Int) (N : Nat) (period : Int)
    (hN : 1 ≤ N)
    (hwin : ∀ j, j ≤ N → f j - f 0 ≤ period)
    (hmono : f 0 ≤ f N)
    (hafter : period < f (N + 1) - f N) :
    (∀ k, k < N → rlResultAt f N period k = true) ∧
    rlResultAt f N period N = false ∧
    (rlStateAfter f N period (N + 1)).lockout = some (f N) ∧
    rlResultAt f N period (N + 1) = true ∧
    (rlStateAfter f N period (N + 2)).counter = some (1, f (N + 1)) := by
  have hstate := rlState_counting f N period hwin
  have hcondN : ¬ (f N - f 0 > period) := by
    have := hwin N le_rfl
    omega
  have hstepN : check_rate_limit ⟨none, some (N, f 0)⟩ (f N) N period
      = (false, ⟨some (f N), some (N + 1, f 0)⟩) := by
    have hgt : N + 1 > N := Nat.lt_succ_self N
    simp [check_rate_limit, checkCounter, hcondN, hgt]
  have hstateN1 : rlStateAfter f N period (N + 1) = ⟨some (f N), some (N + 1, f 0)⟩ := by
    show (check_rate_limit (rlStateAfter f N period N) (f N) N period).2 = _
    rw [hstate N hN le_rfl, hstepN]
  have hlock : ¬ (f (N + 1) - f N < period) := by omega
  have hreset : f (N + 1) - f 0 > period := by
    have := hmono
    omega
  have hstepN1 : check_rate_limit ⟨some (f N), some (N + 1, f 0)⟩ (f (N + 1)) N period
      = (true, ⟨none, some (1, f (N + 1))⟩) := by
    simp [check_rate_limit, checkCounter, hlock, hreset]
  refine ⟨?_, ?_, ?_, ?_, ?_⟩
  · intro k hk
    by_cases hk0 : k = 0
    · subst hk0
      simp [rlResultAt, rlStateAfter, RateState.empty, check_rate_limit, checkCounter]
    · have hk1 : 1 ≤ k := Nat.one_le_iff_ne_zero.mpr hk0
      have hcond : ¬ (f k - f 0 > period) := by
        have := hwin k (by omega)
        omega
      have hcnt : ¬ (k + 1 > N) := by omega
      rw [rlResultAt, hstate k hk1 (le_of_lt hk)]
      simp [check_rate_limit, checkCounter, hcond, hcnt]
  · rw [rlResultAt, hstate N hN le_rfl, hstepN]
  · rw [hstateN1]
  · rw [rlResultAt, hstateN1, hstepN1]
  · show ((check_rate_limit (rlStateAfter f N period (N + 1)) (f (N + 1)) N period).2).counter = _
    rw [hstateN1, hstepN1]

/-- Witness for C3 at `N = 3`, `period = 10`: calls at times 0, 0, 0, 0
then 100. -/
theorem c3_rate_limiter_cycle_witness :
    ((1 ≤ 3) ∧ (∀ j, j ≤ 3 → rlWitnessTimes j - rlWitnessTimes 0 ≤ 10) ∧
      rlWitnessTimes 0 ≤ rlWitnessTimes 3 ∧ 10 < rlWitnessTimes 4 - rlWitnessTimes 3) ∧
    ((∀ k, k < 3 → rlResultAt rlWitnessTimes 3 10 k = true) ∧
      rlResultAt rlWitnessTimes 3 10 3 = false ∧
      (rlStateAfter rlWitnessTimes 3 10 4).lockout = some (rlWitnessTimes 3) ∧
      rlResultAt rlWitnessTimes 3 10 4 = true ∧
      (rlStateAfter rlWitnessTimes 3 10 5).counter = some (1, rlWitnessTimes 4)) :=
  ⟨⟨by decide, by decide, by decide, by decide⟩,
    c3_rate_limiter_cycle rlWitnessTimes 3 10 (by decide) (by decide) (by decide) (by decide)⟩

/-- C5: for every password shorter than the configured minimum length,
`hash_password` fails with the minimum-length violation (the
`SecurityException` from `_validate_password_policy`), and the result is
the same for every Argon2 primitive — the primitive is never invoked. -/
theorem c5_short_password_never_hashed (hash1 hash2 : List Char → String)
    (pol : PasswordPolicy) (common : List (List Char)) (p : List Char)
    (hlen : p.length < pol.min_length) :
    hash_password hash1 pol common p = .error PolicyRule.tooShort ∧
    hash_password hash1 pol common p = hash_password hash2 pol common p := by
  constructor <;> simp [hash_password, validatePasswordPolicy, hlen]

/-- Witness for C5: the five-character password "short" against the default
policy, under two different hash primitives. -/
theorem c5_short_password_never_hashed_witness :
    ("short".toList.length < (mkPasswordPolicy 8).min_length) ∧
    (hash_password (fun _ => "digestA") (mkPasswordPolicy 8) defaultCommonPasswords
        "short".toList = .error PolicyRule.tooShort ∧
      hash_password (fun _ => "digestA") (mkPasswordPolicy 8) defaultCommonPasswords
          "short".toList
        = hash_password (fun _ => "digestB") (mkPasswordPolicy 8) defaultCommonPasswords
            "short".toList) :=
  ⟨by decide,
    c5_short_password_never_hashed (fun _ => "digestA") (fun _ => "digestB")
      (mkPasswordPolicy 8) defaultCommonPasswords "short".toList (by decide)⟩

/-- C6: with `MAX_LOGIN_ATTEMPTS = 5`, after five failed attempts the
account state is `(failed_login_attempts = 5, inactive)`, and the sixth
attempt is rejected with `ACCOUNT_LOCKED` with the state unchanged, for
every submitted password — correct or not — because the lock check precedes
password verification. -/
theorem c6_sixth_attempt_locked :
    authFailTrace 5 5 = ⟨5, false⟩ ∧
    (∀ b : Bool, authenticate 5 (authFailTrace 5 5) b
        = (AuthOutcome.accountLocked, authFailTrace 5 5)) := by
  refine ⟨rfl, ?_⟩
  intro b
  cases b <;> rfl

/-- C7: decrypting an encrypted string returns the string with no security
event; decrypting any token whose authenticated decryption fails raises the
invalid-token error and logs a single high-severity `decryption_failed`
event.  Quantified over every conforming UTF-8 codec, Fernet cipher and
base64 codec. -/
theorem c7_cipher_roundtrip_and_tamper {β γ τ : Type} (u : Utf8Codec β)
    (c : AuthCipher β γ) (b64 : B64Codec γ τ) :
    (∀ s : String, decrypt_data u c b64 (encrypt_data u c b64 s) = (.ok s, [])) ∧
    (∀ (t : τ) (g : γ), b64.decode t = some g → c.dec g = none →
      decrypt_data u c b64 t
        = (.error CryptoError.invalidToken, [⟨"decryption_failed", Severity.high⟩])) := by
  constructor
  · intro s
    simp [decrypt_data, encrypt_data, b64.decode_encode, c.dec_enc, u.decode_encode]
  · intro t g hbg hcg
    simp [decrypt_data, hbg, hcg]

/-- Witness for C7 on concrete codec and cipher instances: the round trip
on "secret", and the tampered token `[]` (base64-decodable but rejected by
the cipher). -/
theorem c7_cipher_roundtrip_and_tamper_witness :
    (wB64.decode ([] : List String) = some [] ∧ wCipher.dec [] = none) ∧
    decrypt_data wUtf8 wCipher wB64 (encrypt_data wUtf8 wCipher wB64 "secret")
      = (.ok "secret", []) ∧
    decrypt_data wUtf8 wCipher wB64 ([] : List String)
      = (.error CryptoError.invalidToken, [⟨"decryption_failed", Severity.high⟩]) :=
  ⟨⟨rfl, rfl⟩,
    (c7_cipher_roundtrip_and_tamper wUtf8 wCipher wB64).1 "secret",
    (c7_cipher_roundtrip_and_tamper wUtf8 wCipher wB64).2 [] [] rfl rfl⟩

/-- C9 counterexample: with `PASSWORD_MIN_LENGTH` absent from the
environment, `Config._get_int` silently falls back to the built-in default
(12) and startup proceeds — a missing value does not make the constructor
raise, contradicting the claim. -/
theorem c9_counterexample_missing_value_defaults :
    getIntConfig (fun _ => none) "PASSWORD_MIN_LENGTH" 12 (some 8) none
      = .ok 12 := by
  rfl

/-- C9 amended: only the two settings fetched without a default are fatal
when missing — `BOT_TOKEN` and the cipher key `FERNET_KEY` (whose dead
generation branch never runs) — and malformed or out-of-range numeric
values are fatal; every other setting falls back to its built-in default
when absent instead of failing startup. -/
theorem c9_amended_fail_fast :
    getEnvVar (fun _ => none) "BOT_TOKEN" none = .error (.missingVar "BOT_TOKEN") ∧
    (∀ generated : String, getFernetKey (fun _ => none) generated
        = .error (.missingVar "FERNET_KEY")) ∧
    getIntConfig (fun k => if k = "MAX_LOGIN_ATTEMPTS" then some "five" else none)
        "MAX_LOGIN_ATTEMPTS" 5 (some 1) none
      = .error (.invalidValue "MAX_LOGIN_ATTEMPTS") ∧
    getIntConfig (fun k => if k = "MAX_LOGIN_ATTEMPTS" then some "0" else none)
        "MAX_LOGIN_ATTEMPTS" 5 (some 1) none
      = .error (.invalidValue "MAX_LOGIN_ATTEMPTS") ∧
    getIntConfig (fun _ => none) "LOCKOUT_TIME" 300 (some 60) none = .ok 300 :=
  ⟨rfl, fun _ => rfl, rfl, rfl, rfl⟩

/-- C10: for every password string (and any behaviour of the floating-point
logarithm), `check_password_strength` returns a total result whose strength
rating lies in 1..5; totality of the embedding reflects that no step of the
source can raise. -/
theorem c10_strength_total (log2f : Nat → ℚ) (pol : PasswordPolicy)
    (common : List (List Char)) (p : List Char) :
    1 ≤ (check_password_strength log2f pol common p).strength ∧
    (check_password_strength log2f pol common p).strength ≤ 5 := by
  have hgen : ∀ (c : Bool) (e : ℚ),
      1 ≤ (if c = true then 1 else entropyStrength e) ∧
      (if c = true then 1 else entropyStrength e) ≤ 5 := by
    intro c e
    cases c
    · simp only [Bool.false_eq_true, if_false]
      unfold entropyStrength
      split_ifs <;> simp
    · simp
  simp only [check_password_strength]
  exact hgen _ _

/-- C8 amended: `_validate_password_policy` returns exactly the first rule
of the source's check order whose raw condition holds (`find?` on the
ordered rule list) — i.e. it checks length bounds, the four character
classes, the common set, triple repeats and then sequences, failing fast
with the first violated rule; the sequence rule, however, rejects the
three-character ascending numeric runs `123`…`890` (length 3, not only
length ≥ 4) besides the four-character keyboard runs. -/
theorem c8_policy_order_first_violation (pol : PasswordPolicy)
    (common : List (List Char)) (p : List Char) :
    validatePasswordPolicy pol common p
      = policyRuleOrder.find? (violatesRule pol common p) := by
  by_cases h1 : p.length < pol.min_length
  · simp [validatePasswordPolicy, policyRuleOrder, List.find?, violatesRule, h1]
  by_cases h2 : p.length > pol.max_length
  · simp [validatePasswordPolicy, policyRuleOrder, List.find?, violatesRule, h1, h2]
  by_cases h3 : (pol.require_upper && !(p.any isUpperAZ)) = true
  · simp [validatePasswordPolicy, policyRuleOrder, List.find?, violatesRule, h1, h2, h3]
  by_cases h4 : (pol.require_lower && !(p.any isLowerAZ)) = true
  · simp [validatePasswordPolicy, policyRuleOrder, List.find?, violatesRule, h1, h2, h3, h4]
  by_cases h5 : (pol.require_digit && !(p.any isDigit09)) = true
  · simp [validatePasswordPolicy, policyRuleOrder, List.find?, violatesRule,
      h1, h2, h3, h4, h5]
  by_cases h6 : (pol.require_special && !(p.any isSpecialPolicy)) = true
  · simp [validatePasswordPolicy, policyRuleOrder, List.find?, violatesRule,
      h1, h2, h3, h4, h5, h6]
  rcases Bool.eq_false_or_eq_true
      (pol.block_common && common.contains (p.map Char.toLower)) with h7 | h7
  · simp only [validatePasswordPolicy, policyRuleOrder, List.find?, violatesRule, h7]
    simp [h1, h2, h3, h4, h5, h6]
  · by_cases h8 : (pol.block_repeats && hasTripleRepeat p) = true
    · simp only [validatePasswordPolicy, policyRuleOrder, List.find?, violatesRule, h7]
      simp [h1, h2, h3, h4, h5, h6, h8]
    by_cases h9 : (pol.block_sequences && (hasNumericSequence p || hasKeyboardSequence p)) = true
    · simp only [validatePasswordPolicy, policyRuleOrder, List.find?, violatesRule, h7]
      simp [h1, h2, h3, h4, h5, h6, h8, h9]
    · simp only [validatePasswordPolicy, policyRuleOrder, List.find?, violatesRule, h7]
      simp [h1, h2, h3, h4, h5, h6, h8, h9]

/-- C8 counterexample: the password `Worxm!k123pz` satisfies the length
bounds and all four class requirements, is not a common password, has no
triple repeat, and contains no keyboard run and no length-4 numeric run —
yet the policy rejects it under the sequence rule, because of the
three-character run `123`.  The claim's "rejecting only sequences of
length at least 4" is therefore false. -/
theorem c8_counterexample_numeric_triple :
    validatePasswordPolicy (mkPasswordPolicy 8) defaultCommonPasswords c8Password
      = some PolicyRule.sequences ∧
    hasKeyboardSequence c8Password = false ∧
    numericQuads.all (fun pat => !(containsChars pat c8Password)) = true ∧
    ([PolicyRule.tooShort, .tooLong, .noUpper, .noLower, .noDigit, .noSpecial,
        .common, .repeats].all
      (fun q => !(violatesRule (mkPasswordPolicy 8) defaultCommonPasswords c8Password q)))
      = true := by
  refine ⟨?_, ?_, ?_, ?_⟩ <;> decide

/-- C1 amended: admin adjustment and withdrawal debiting are all-or-nothing
— whatever step fails (`failAt` injects a failure anywhere, including the
validation reads), the visible state is either untouched or carries both
the balance write and the matching transaction row.  (Deposit crediting is
not atomic; see the counterexample.) -/
theorem c1_transactional_paths_atomic (s : DBState) (uid : Nat)
    (amount maxChange : ℤ) (txid : Nat) (now : Int) (failAt : Option Nat) :
    ((adjust_user_balance maxChange s uid amount txid now failAt).2 = s ∨
      ((adjust_user_balance maxChange s uid amount txid now failAt).2.bal uid
          = s.bal uid + amount ∧
        (adjust_user_balance maxChange s uid amount txid now failAt).2.txs
          = s.txs ++ [⟨txid, uid, amount, .completed, .adminAdjustment, now⟩])) ∧
    ((process_withdraw_wallet s uid amount txid now failAt).2 = s ∨
      ((process_withdraw_wallet s uid amount txid now failAt).2.bal uid
          = s.bal uid - amount ∧
        (process_withdraw_wallet s uid amount txid now failAt).2.txs
          = s.txs ++ [⟨txid, uid, amount, .processing, .withdrawal, now⟩])) := by
  constructor
  · unfold adjust_user_balance
    split_ifs with hv1 hv2
    · exact Or.inl rfl
    · exact Or.inl rfl
    · cases failAt with
      | some k => exact Or.inl rfl
      | none =>
        refine Or.inr ⟨?_, ?_⟩ <;>
          simp [runTxn, adjustStmts, applyStmt]
  · unfold process_withdraw_wallet
    cases failAt with
    | some k => exact Or.inl rfl
    | none =>
      refine Or.inr ⟨?_, ?_⟩ <;>
        simp [runTxn, withdrawStmts, applyStmt, sub_eq_add_neg]

/-- C1 counterexample: processing a pending 50-unit deposit for account 7,
the status update auto-commits and then the balance credit fails — the
visible state has the transaction row `completed` while the balance is
still 0, a partial state the claim says is never visible. -/
theorem c1_counterexample_deposit_not_atomic :
    c1Partial.txs = [⟨5, 7, 50, .completed, .deposit, 0⟩] ∧
    c1Partial.bal 7 = 0 ∧
    completedSignedSum 7 c1Partial.txs = 50 := by
  refine ⟨by decide, by decide, by decide⟩

/-- C2 amended: in every state reachable through the ledger operations, each
account's stored balance equals the net contribution of its transaction
rows — completed deposits and adjustments credited, completed withdrawals
debited, and pending/processing withdrawals already debited (the source
debits at withdrawal creation, before external confirmation, so the
original claim's completed-only sum overstates the balance while a
withdrawal is in flight). -/
theorem c2_balance_equals_net_ledger_sum {maxChange : ℤ} {s : DBState}
    (h : LedgerReachable maxChange s) :
    ∀ uid, s.bal uid = netSum uid s.txs :=
  (ledgerInv_reachable h).1

/-- The two-step trace behind the C2 witness and counterexample: an admin
adjustment of +100 to account 1, then a withdrawal of 40. -/
theorem c2ExampleReachable : LedgerReachable 10000 c2Step2State := by
  have h1 : LedgerStep 10000 DBInit c2Step1State :=
    LedgerStep.adjust DBInit 1 100 1 0 (by decide) (by decide)
      (by intro t ht; simp [DBInit] at ht)
  have h2 : LedgerStep 10000 c2Step1State c2Step2State :=
    LedgerStep.withdrawCreate c2Step1State 1 40 2 5 (by decide) (by decide)
  exact (Relation.ReflTransGen.single h1).tail h2

/-- Witness for C2 on the two-step trace: the reachable state satisfies the
amended balance equation. -/
theorem c2_balance_equals_net_ledger_sum_witness :
    LedgerReachable 10000 c2Step2State ∧
    c2Step2State.bal 1 = netSum 1 c2Step2State.txs :=
  ⟨c2ExampleReachable, c2_balance_equals_net_ledger_sum c2ExampleReachable 1⟩

/-- C2 counterexample: the same reachable state — balance 100 adjusted in,
then 40 withdrawn and still `processing` — has stored balance 60 while the
sum of completed transactions signed as the claim prescribes is 100, so the
claimed invariant fails as stated. -/
theorem c2_counterexample_processing_withdrawal :
    LedgerReachable 10000 c2Step2State ∧
    c2Step2State.bal 1 = 60 ∧
    completedSignedSum 1 c2Step2State.txs = 100 :=
  ⟨c2ExampleReachable, by decide, by decide⟩

/-- C4: if one transaction row is a withdrawal stuck in `pending` or
`processing` for over an hour and every other row is not stuck, then a
single run of `_task_check_pending_transactions` marks exactly that row
`failed` and adds the withdrawal amount back to the account balance. -/
theorem c4_reconciliation_refunds_stuck_withdrawal (s : DBState)
    (pre post : List TxRow) (r : TxRow) (now : Int)
    (hdec : s.txs = pre ++ r :: post)
    (hkind : r.kind = TxKind.withdrawal)
    (hstuck : isStuck now r = true)
    (hothers : ∀ t ∈ pre ++ post, isStuck now t = false)
    (hkeys : ∀ t ∈ pre ++ post, t.txid ≠ r.txid) :
    (check_pending_transactions now s).txs
        = pre ++ { r with status := TxStatus.failed } :: post ∧
    (check_pending_transactions now s).bal r.uid = s.bal r.uid + r.amount := by
  have hpre : pre.filter (isStuck now) = [] := by
    rw [List.filter_eq_nil]
    intro t ht
    simp [hothers t (List.mem_append_left _ ht)]
  have hpost : post.filter (isStuck now) = [] := by
    rw [List.filter_eq_nil]
    intro t ht
    simp [hothers t (List.mem_append_right _ ht)]
  have hfilter : s.txs.filter (isStuck now) = [r] := by
    rw [hdec, List.filter_append, List.filter_cons, hpre, hpost]
    simp [hstuck]
  have hstmts : reconcileStmts now s.txs
      = [DbStmt.setStatus r.txid .failed, DbStmt.addBal r.uid r.amount] := by
    simp [reconcileStmts, hfilter, hkind]
  unfold check_pending_transactions
  rw [hstmts]
  constructor
  · show (applyStmt (applyStmt s (.setStatus r.txid .failed))
        (.addBal r.uid r.amount)).txs = _
    simp only [applyStmt]
    rw [hdec, map_updStatus_decomp pre post r .failed
      (fun t ht => hkeys t (List.mem_append_left _ ht))
      (fun t ht => hkeys t (List.mem_append_right _ ht))]
  · show (applyStmt (applyStmt s (.setStatus r.txid .failed))
        (.addBal r.uid r.amount)).bal r.uid = _
    simp [applyStmt]

/-- Witness for C4, the claim's own scenario: account 7 starts at 100.00,
a withdrawal of 40.00 leaves 60.00 and one processing withdrawal row of
40.00, and after the one-hour timeout a reconciliation run marks the row
`failed` and restores the balance to 100.00. -/
theorem c4_reconciliation_refunds_stuck_withdrawal_witness :
    (c4AfterWithdraw.txs = [] ++ c4Row :: [] ∧ c4Row.kind = TxKind.withdrawal ∧
      isStuck 7200 c4Row = true) ∧
    c4AfterWithdraw.bal 7 = 60 ∧
    c4Reconciled.txs = [⟨2, 7, 40, .failed, .withdrawal, 0⟩] ∧
    c4Reconciled.bal 7 = 100 := by
  have h := c4_reconciliation_refunds_stuck_withdrawal c4AfterWithdraw [] [] c4Row 7200
    (by decide) (by decide) (by decide)
    (by intro t ht; simp at ht) (by intro t ht; simp at ht)
  refine ⟨⟨by decide, by decide, by decide⟩, by decide, ?_, ?_⟩
  · exact h.1.trans (by decide)
  · exact h.2.trans (by decide)

end Bot2
